import Mathlib

/-!
Verification development for the VoxLux voice-assistant core.

This file embeds, as executable Lean definitions, the parts of the source
that the specification's testable properties talk about:

* the microphone capture cache (src/services/microphoneManager.ts):
  permission flag, cached stream, track liveness, the getAudioStream
  cache-or-request logic and its error classification;
* the unified streaming session (src/unnamed/part_002, GeminiLiveService):
  PCM sample conversion, inbound message dispatch with gapless playback
  scheduling and interruption, disconnect/cleanup, and the outbound pump;
* the legacy WebSocket session (src/services/geminiLiveService.ts):
  the isStreaming flag guarding the capture callback and stopStreaming;
* the batch transcription fallbacks (src/services/voiceService.ts, two
  variants): the minimum-duration gate in processRecordedAudio.

Machine floats are modelled by rationals; this is exact for the conversions
involved (float32 significands times 32767 or 32768 fit in float64, and
int16 over 32768 fits in float32), and JS assignment to an Int16Array
truncates toward zero, modelled by jsTrunc below.
-/

/-! ## Microphone capture cache (src/services/microphoneManager.ts) -/

/-- One MediaStreamTrack: the enabled flag and whether readyState is live. -/
structure MediaStreamTrack where
  enabled : Bool
  live : Bool
deriving DecidableEq, Repr

/-- One MediaStream handle: an identity (to state that the very same cached
handle is returned), the active flag, and its tracks. -/
structure MediaStream where
  sid : Nat
  active : Bool
  tracks : List MediaStreamTrack
deriving DecidableEq, Repr

/-- The check in getAudioStream: at least one track is enabled and live. -/
def hasActiveTracks (s : MediaStream) : Bool :=
  s.tracks.any fun t => t.enabled && t.live

/-- Error names thrown by getUserMedia that the manager distinguishes. -/
inductive MediaError where
  | notAllowed
  | notFound
  | notReadable
  | other
deriving DecidableEq, Repr

/-- The error kinds of the spec's taxonomy (denied, not-found, busy, other). -/
inductive MicErrorKind where
  | denied
  | deviceNotFound
  | deviceBusy
  | otherKind
deriving DecidableEq, Repr

/-- The if/else chain on error.name in the catch clause of initialize
(microphoneManager.ts lines 108-121) and getAudioStream (lines 273-285):
NotAllowedError, NotFoundError, NotReadableError, anything else. -/
def classifyMicError : MediaError → MicErrorKind
  | MediaError.notAllowed => MicErrorKind.denied
  | MediaError.notFound => MicErrorKind.deviceNotFound
  | MediaError.notReadable => MicErrorKind.deviceBusy
  | MediaError.other => MicErrorKind.otherKind

/-- The value initialize returns from its catch clause: false for every
error kind (the classification is only logged, never returned). -/
def initOnError (_e : MediaError) : Bool := false

/-- Mutable fields of MicrophoneManager used by getAudioStream. -/
structure MicState where
  permissionGranted : Bool
  audioStream : Option MediaStream
  isStreamActive : Bool
deriving DecidableEq, Repr

/-- The environment's answer to one getUserMedia call: a fresh stream or a
thrown error. -/
def OsAnswer := Except MediaError MediaStream

instance : DecidableEq OsAnswer := fun a b =>
  match a, b with
  | Except.ok x, Except.ok y =>
      if h : x = y then Decidable.isTrue (by rw [h]) else
        Decidable.isFalse (by intro hc; exact h (Except.ok.inj hc))
  | Except.error x, Except.error y =>
      if h : x = y then Decidable.isTrue (by rw [h]) else
        Decidable.isFalse (by intro hc; exact h (Except.error.inj hc))
  | Except.ok _, Except.error _ => Decidable.isFalse (by intro hc; cases hc)
  | Except.error _, Except.ok _ => Decidable.isFalse (by intro hc; cases hc)

/-- The request half of getAudioStream (microphoneManager.ts lines 241-285):
the permission gate, then getUserMedia; on success cache and return the new
stream; on failure null the cache, and on NotAllowedError also clear the
cached permission. Result: new state, returned stream or null, and whether
an OS-level capture request was issued. -/
def micRequestStream (st : MicState) (os : OsAnswer) :
    MicState × Option MediaStream × Bool :=
  if st.permissionGranted = false then (st, none, false)
  else
    match os with
    | Except.ok s =>
        ({ st with audioStream := some s, isStreamActive := true }, some s, true)
    | Except.error e =>
        let st1 : MicState := { st with audioStream := none, isStreamActive := false }
        if e = MediaError.notAllowed then
          ({ st1 with permissionGranted := false }, none, true)
        else (st1, none, true)

/-- getAudioStream (microphoneManager.ts lines 218-286): return the cached
stream when it is flagged active, stream.active holds and some track is
enabled and live; otherwise drop the active flag and fall through to the
permission-gated request. -/
def getAudioStream (st : MicState) (os : OsAnswer) :
    MicState × Option MediaStream × Bool :=
  match st.audioStream with
  | some s =>
      if st.isStreamActive && s.active then
        if hasActiveTracks s then (st, some s, false)
        else micRequestStream { st with isStreamActive := false } os
      else micRequestStream { st with isStreamActive := false } os
  | none => micRequestStream st os

/-- The cache test of getAudioStream as one boolean. -/
def cacheHit (st : MicState) : Bool :=
  match st.audioStream with
  | some s => st.isStreamActive && s.active && hasActiveTracks s
  | none => false

/-- Iterate getAudioStream over a list of per-call OS answers, collecting
each call's returned stream and request flag. -/
def runGetAudioStream (st : MicState) :
    List OsAnswer → MicState × List (Option MediaStream × Bool)
  | [] => (st, [])
  | os :: rest =>
      let r := getAudioStream st os
      let rr := runGetAudioStream r.1 rest
      (rr.1, (r.2.1, r.2.2) :: rr.2)

/-- A fresh manager state whose permission is granted and cache empty. -/
def micFreshGranted : MicState :=
  { permissionGranted := true, audioStream := none, isStreamActive := false }

/-- A live stream: active, with one enabled live track. -/
def demoStream : MediaStream :=
  { sid := 1, active := true, tracks := [{ enabled := true, live := true }] }

/-- The manager state right after caching a granted stream. -/
def micCached (s : MediaStream) : MicState :=
  { permissionGranted := true, audioStream := some s, isStreamActive := true }

/-- A manager state with permission not granted and empty cache. -/
def micDenied : MicState :=
  { permissionGranted := false, audioStream := none, isStreamActive := false }

/-! ## PCM sample conversion (src/unnamed/part_002 lines 350-357, 376-398) -/

/-- JS truncation toward zero, as performed when a number is stored into an
Int16Array element (the value ranges here never exceed int16). -/
def jsTrunc (q : ℚ) : ℤ :=
  if q < 0 then -Int.floor (-q) else Int.floor q

/-- The clamp of float32ToInt16. -/
def ratClamp (x : ℚ) : ℚ := max (-1) (min 1 x)

/-- One sample of float32ToInt16: clamp to the unit interval, scale by 32768
for negative values and 32767 otherwise, store as int16. -/
def float32ToInt16Sample (x : ℚ) : ℤ :=
  let s := ratClamp x
  if s < 0 then jsTrunc (s * 32768) else jsTrunc (s * 32767)

/-- float32ToInt16 over a whole block of samples. -/
def float32ToInt16 (xs : List ℚ) : List ℤ :=
  xs.map float32ToInt16Sample

/-- One sample of the decode loop in decodeAudioData: sample over 32768. -/
def int16SampleToFloat (i : ℤ) : ℚ := (i : ℚ) / 32768

/-- The int16-to-float loop of decodeAudioData over a whole block. -/
def decodeAudioSamples (pcm : List ℤ) : List ℚ :=
  pcm.map int16SampleToFloat

/-! ## Unified streaming session (src/unnamed/part_002, GeminiLiveService) -/

/-- Duration in seconds of a decoded chunk: createBuffer is called with the
sample count and the fixed 24000 Hz output rate. -/
def chunkDur (pcm : List ℤ) : ℚ := (pcm.length : ℚ) / 24000

/-- The mutable playback and transcript fields of GeminiLiveService touched
by handleServerMessage: the nextStartTime cursor, the set of scheduled
buffer sources (by identifier, with a counter to mint fresh ones), and the
two accumulating text buffers. -/
structure LiveState where
  nextStartTime : ℚ
  sources : List Nat
  nextSourceId : Nat
  currentInputText : String
  currentOutputText : String
deriving DecidableEq, Repr

/-- The serverContent fields of one inbound message that the dispatch reads:
decoded PCM of modelTurn inlineData if present, the interrupted flag, the
two transcription texts, and the turnComplete flag. -/
structure ServerContent where
  audioData : Option (List ℤ)
  interrupted : Bool
  inputTranscription : Option String
  outputTranscription : Option String
  turnComplete : Bool
deriving DecidableEq, Repr

/-- Observable actions of the session: scheduling a buffer source at a start
time with a duration, stopping a source, a transcript callback invocation,
and requesting close of the remote channel. -/
inductive Emit where
  | scheduled (srcId : Nat) (start dur : ℚ)
  | stopped (srcId : Nat)
  | transcript (text : String) (isUser : Bool) (isFinal : Bool)
  | closeRequested
deriving DecidableEq, Repr

/-- handleServerMessage (src/unnamed/part_002 lines 228-306). The branches
run in source order: 1 audio chunk (clamp the cursor to currentTime,
schedule at the cursor, advance it by the chunk duration, add the source),
2 interrupted (stop and clear all sources, zero the cursor, void the model
text buffer), 3 input transcription append, 4 output transcription append,
5 turn complete (emit finals for buffers whose trim is nonempty, clearing
them). The now argument is outputAudioContext.currentTime. -/
def handleServerMessage (st : LiveState) (now : ℚ) (mc : Option ServerContent) :
    LiveState × List Emit :=
  match mc with
  | none => (st, [])
  | some c =>
    let step1 :=
      match c.audioData with
      | some pcm =>
          let start := max st.nextStartTime now
          (({ st with nextStartTime := start + chunkDur pcm,
                      sources := st.nextSourceId :: st.sources,
                      nextSourceId := st.nextSourceId + 1 } : LiveState),
           [Emit.scheduled st.nextSourceId start (chunkDur pcm)])
      | none => (st, ([] : List Emit))
    let st1 := step1.1
    let step2 :=
      if c.interrupted then
        (({ st1 with sources := [], nextStartTime := 0, currentOutputText := "" } : LiveState),
         st1.sources.map Emit.stopped)
      else (st1, ([] : List Emit))
    let st2 := step2.1
    let step3 :=
      match c.inputTranscription with
      | some t =>
          if t ≠ "" then
            (({ st2 with currentInputText := st2.currentInputText ++ t } : LiveState),
             [Emit.transcript (st2.currentInputText ++ t) true false])
          else (st2, ([] : List Emit))
      | none => (st2, ([] : List Emit))
    let st3 := step3.1
    let step4 :=
      match c.outputTranscription with
      | some t =>
          if t ≠ "" then
            (({ st3 with currentOutputText := st3.currentOutputText ++ t } : LiveState),
             [Emit.transcript (st3.currentOutputText ++ t) false false])
          else (st3, ([] : List Emit))
      | none => (st3, ([] : List Emit))
    let st4 := step4.1
    let step5 :=
      if c.turnComplete then
        let stepA :=
          if st4.currentInputText.trim ≠ "" then
            (({ st4 with currentInputText := "" } : LiveState),
             [Emit.transcript st4.currentInputText true true])
          else (st4, ([] : List Emit))
        let stA := stepA.1
        let stepB :=
          if stA.currentOutputText.trim ≠ "" then
            (({ stA with currentOutputText := "" } : LiveState),
             [Emit.transcript stA.currentOutputText false true])
          else (stA, ([] : List Emit))
        (stepB.1, stepA.2 ++ stepB.2)
      else (st4, ([] : List Emit))
    (step5.1, step1.2 ++ step2.2 ++ step3.2 ++ step4.2 ++ step5.2)

/-- A message carrying only an audio chunk. -/
def audioOnlyMsg (pcm : List ℤ) : ServerContent :=
  { audioData := some pcm, interrupted := false, inputTranscription := none,
    outputTranscription := none, turnComplete := false }

/-- The start times of the scheduled-playback actions in an action list. -/
def scheduledStarts (l : List Emit) : List ℚ :=
  l.filterMap fun e =>
    match e with
    | Emit.scheduled _ s _ => some s
    | _ => none

/-- Feed a list of audio chunks, each paired with the output context's
current time when its message is handled, through handleServerMessage. -/
def runAudioChunks (st : LiveState) :
    List (List ℤ × ℚ) → LiveState × List Emit
  | [] => (st, [])
  | c :: rest =>
      let r := handleServerMessage st c.2 (some (audioOnlyMsg c.1))
      let rr := runAudioChunks r.1 rest
      (rr.1, r.2 ++ rr.2)

/-- The closed-form sequence of scheduled start times: each chunk starts at
the cursor clamped to its current time, and the cursor advances by the
chunk duration. -/
def startsAux (next : ℚ) : List (List ℤ × ℚ) → List ℚ
  | [] => []
  | c :: rest => max next c.2 :: startsAux (max next c.2 + chunkDur c.1) rest

/-- A zeroed LiveState. -/
def liveZero : LiveState :=
  { nextStartTime := 0, sources := [], nextSourceId := 0,
    currentInputText := "", currentOutputText := "" }

/-- A concrete two-chunk inbound sequence: two samples arriving at time 0,
then one sample arriving at time 1. -/
def demoChunks : List (List ℤ × ℚ) := [([0, 0], 0), ([0], 1)]

/-- A concrete interruption message that also carries an audio chunk. -/
def demoInterruptMsg : ServerContent :=
  { audioData := some [1, 2], interrupted := true, inputTranscription := none,
    outputTranscription := none, turnComplete := false }

/-- A concrete message carrying the interrupted flag together with a piece
of output transcription text. -/
def interruptWithTextMsg : ServerContent :=
  { audioData := none, interrupted := true, inputTranscription := none,
    outputTranscription := some "and then", turnComplete := false }

/-- The connection-level fields of GeminiLiveService next to the LiveState:
the session and sessionPromise references, the two audio contexts, the
analyser and the input graph nodes, each modelled as present or not. -/
structure GeminiSessionState where
  session : Bool
  sessionPromiseActive : Bool
  inputCtxOpen : Bool
  outputCtxOpen : Bool
  analyserSet : Bool
  processorSet : Bool
  inputSourceSet : Bool
  live : LiveState
deriving DecidableEq, Repr

/-- cleanup (src/unnamed/part_002 lines 310-343): stop and clear all
scheduled sources, disconnect and null the processor and input source,
close both audio contexts, null the analyser, reset both text buffers and
the cursor. -/
def cleanup (st : GeminiSessionState) : GeminiSessionState × List Emit :=
  (({ st with
      live := { nextStartTime := 0, sources := [],
                nextSourceId := st.live.nextSourceId,
                currentInputText := "", currentOutputText := "" },
      processorSet := false, inputSourceSet := false,
      inputCtxOpen := false, outputCtxOpen := false,
      analyserSet := false } : GeminiSessionState),
   st.live.sources.map Emit.stopped)

/-- disconnect (src/unnamed/part_002 lines 160-175): close the session when
one is set (close errors are caught and only logged), null session and
sessionPromise, then cleanup. -/
def disconnect (st : GeminiSessionState) : GeminiSessionState × List Emit :=
  let closeEmits : List Emit := if st.session then [Emit.closeRequested] else []
  let r := cleanup { st with session := false, sessionPromiseActive := false }
  (r.1, closeEmits ++ r.2)

/-- An idle session: no session or pending session promise, no open context
or audio node, no scheduled source, zero cursor, empty buffers. -/
def isIdleb (st : GeminiSessionState) : Bool :=
  !st.session && !st.sessionPromiseActive && !st.inputCtxOpen &&
  !st.outputCtxOpen && !st.analyserSet && !st.processorSet &&
  !st.inputSourceSet && st.live.sources.isEmpty &&
  decide (st.live.nextStartTime = 0) &&
  decide (st.live.currentInputText = "") &&
  decide (st.live.currentOutputText = "")

/-- The idle session state with a zeroed LiveState. -/
def geminiIdleState : GeminiSessionState :=
  { session := false, sessionPromiseActive := false, inputCtxOpen := false,
    outputCtxOpen := false, analyserSet := false, processorSet := false,
    inputSourceSet := false, live := liveZero }

/-! ## Outbound pump (src/unnamed/part_002 lines 179-224)

The pump model must expose the suspension point inside disconnect: the code
runs await on session.close() BEFORE nulling this.sessionPromise, and
close settles on an external event, so a disconnect is split into the stop
request (running up to that await) and the later resumption when the close
resolves (which nulls session and sessionPromise and runs cleanup). Capture
callbacks interleave freely with both halves on the event loop. -/

/-- The pump-visible coroutine state of the unified session: whether the
session and sessionPromise references are set, and whether a disconnect is
currently suspended at its await of session.close(). -/
structure GeminiPumpState where
  session : Bool
  sessionPromiseActive : Bool
  closingAwait : Bool
deriving DecidableEq, Repr

/-- The onaudioprocess callback of startAudioInputStreaming: when
sessionPromise has been nulled the frame is dropped by the early return;
otherwise the frame is converted by float32ToInt16 and sent on the session
as a realtime-media frame. -/
def geminiOnAudioProcess (st : GeminiPumpState) (frame : List ℚ) : List (List ℤ) :=
  if st.sessionPromiseActive then [float32ToInt16 frame] else []

/-- One event on the cooperative event loop for the unified pump: a capture
callback with its float frame; a stop request, that is, a disconnect call
running up to its first suspension point; and the resolution of the awaited
session.close(). -/
inductive GeminiPumpEvent where
  | capture (frame : List ℚ)
  | stopRequest
  | closeResolved
deriving Repr

/-- disconnect up to its first suspension point: with a session set it
suspends at await session.close(), mutating nothing yet; with no session it
runs synchronously to completion, nulling sessionPromise (and running
cleanup, which touches no pump-visible field). -/
def geminiStopRequest (st : GeminiPumpState) : GeminiPumpState :=
  if st.session then { st with closingAwait := true }
  else { st with sessionPromiseActive := false }

/-- Resumption of a suspended disconnect once session.close() settles:
null the session and the sessionPromise and finish cleanup; a no-op when no
disconnect is suspended. -/
def geminiCloseResolved (st : GeminiPumpState) : GeminiPumpState :=
  if st.closingAwait then
    { session := false, sessionPromiseActive := false, closingAwait := false }
  else st

/-- Run the unified-session pump over an event sequence, collecting the
int16 frames actually sent on the channel. -/
def geminiPumpRun (st : GeminiPumpState) :
    List GeminiPumpEvent → GeminiPumpState × List (List ℤ)
  | [] => (st, [])
  | GeminiPumpEvent.capture f :: rest =>
      let rr := geminiPumpRun st rest
      (rr.1, geminiOnAudioProcess st f ++ rr.2)
  | GeminiPumpEvent.stopRequest :: rest => geminiPumpRun (geminiStopRequest st) rest
  | GeminiPumpEvent.closeResolved :: rest => geminiPumpRun (geminiCloseResolved st) rest

/-- The pump state while a conversation is streaming. -/
def geminiStreamingState : GeminiPumpState :=
  { session := true, sessionPromiseActive := true, closingAwait := false }

/-- One event on the cooperative event loop for the legacy pump: a capture
callback with its float frame, or a stopStreaming call (which is fully
synchronous). -/
inductive PumpEvent where
  | capture (frame : List ℚ)
  | stop
deriving Repr

/-! ## Legacy WebSocket session (src/services/geminiLiveService.ts) -/

/-- The fields of the legacy GeminiLiveService that startStreaming and
stopStreaming touch: the isStreaming flag that gates the capture callback,
and the media graph resources. -/
structure LiveApiState where
  isStreaming : Bool
  scriptProcessorSet : Bool
  audioCtxOpen : Bool
  mediaStreamSet : Bool
deriving DecidableEq, Repr

/-- The onaudioprocess callback of startStreaming (lines 232-246): return
without sending when isStreaming is false, otherwise convert the frame and
send it as base64 PCM. -/
def liveApiOnAudioProcess (st : LiveApiState) (frame : List ℚ) : List (List ℤ) :=
  if st.isStreaming then [float32ToInt16 frame] else []

/-- stopStreaming (lines 266-288): a no-op when not streaming; otherwise
clear the flag, disconnect the processor, close the context, stop the
tracks. -/
def stopStreaming (st : LiveApiState) : LiveApiState :=
  if st.isStreaming then
    { isStreaming := false, scriptProcessorSet := false,
      audioCtxOpen := false, mediaStreamSet := false }
  else st

/-- Run the legacy pump over an event sequence, collecting sent frames. -/
def liveApiRun (st : LiveApiState) :
    List PumpEvent → LiveApiState × List (List ℤ)
  | [] => (st, [])
  | PumpEvent.capture f :: rest =>
      let rr := liveApiRun st rest
      (rr.1, liveApiOnAudioProcess st f ++ rr.2)
  | PumpEvent.stop :: rest => liveApiRun (stopStreaming st) rest

/-! ## connect (src/unnamed/part_002 lines 69-155) -/

/-- The externally visible steps connect performs. -/
inductive ConnectAction where
  | inputCtxCreated
  | outputCtxCreated
  | captureRequested
  | channelOpened
deriving DecidableEq, Repr

/-- connect as written: it reads no state before proceeding - it creates
both audio contexts, sets up the analyser, issues a getUserMedia capture
request, opens the live channel and installs the session promise,
unconditionally in source order. There is no check that the session is
idle and no early return. -/
def connectSteps (st : GeminiSessionState) : GeminiSessionState × List ConnectAction :=
  (({ st with inputCtxOpen := true, outputCtxOpen := true, analyserSet := true,
              sessionPromiseActive := true, session := true } : GeminiSessionState),
   [ConnectAction.inputCtxCreated, ConnectAction.outputCtxCreated,
    ConnectAction.captureRequested, ConnectAction.channelOpened])

/-! ## Batch transcription fallbacks (src/services/voiceService.ts) -/

/-- Total recorded samples: the reduce over the per-chunk lengths. -/
def chunkTotal (chunks : List Nat) : Nat := chunks.foldl (· + ·) 0

/-- processRecordedAudio of the Gemini batch variant (voiceService.ts lines
1054-1111): empty result when nothing was recorded; combine the chunks,
compute the duration, and below 1.5 seconds return the empty string
without calling the remote transcription; otherwise call it and return its
result. The chunks argument carries each recorded chunk's sample count and
remoteResult the transcription the remote call would return. -/
def processRecordedAudioGemini (chunks : List Nat) (sampleRate : ℚ)
    (remoteResult : String) : String × Bool :=
  if chunks = [] then ("", false)
  else
    let durationSec : ℚ := (chunkTotal chunks : ℚ) / sampleRate
    if durationSec < 3 / 2 then ("", false)
    else (remoteResult, true)

/-- processRecordedAudio of the OpenRouter variant (voiceService.ts lines
372-423): identical shape, but the minimum-duration gate is 0.5 seconds,
not 1.5. -/
def processRecordedAudioOpenRouter (chunks : List Nat) (sampleRate : ℚ)
    (remoteResult : String) : String × Bool :=
  if chunks = [] then ("", false)
  else
    let durationSec : ℚ := (chunkTotal chunks : ℚ) / sampleRate
    if durationSec < 1 / 2 then ("", false)
    else (remoteResult, true)

/-! ## Capture cache lemmas and claims C1, C6, C10 -/

/-- A call whose cache test succeeds returns the cached stream unchanged
with no OS request. -/
theorem getAudioStream_cacheHit (st : MicState) (s : MediaStream) (os : OsAnswer)
    (h2 : st.audioStream = some s) (h1 : cacheHit st = true) :
    getAudioStream st os = (st, some s, false) := by
  simp only [cacheHit, h2, Bool.and_eq_true] at h1
  simp [getAudioStream, h2, h1.1.1, h1.1.2, h1.2]

/-- While the cache test keeps succeeding, every call returns the cached
stream and never issues a request. -/
theorem runGetAudioStream_cached (st : MicState) (s : MediaStream)
    (h2 : st.audioStream = some s) (h1 : cacheHit st = true) :
    ∀ l : List OsAnswer,
      runGetAudioStream st l = (st, l.map fun _ => (some s, false)) := by
  intro l
  induction l with
  | nil => simp [runGetAudioStream]
  | cons os rest ih =>
      simp [runGetAudioStream, getAudioStream_cacheHit st s os h2 h1, ih]

/-- Claim C1: getAudioStream returns the identical cached handle with no
OS-level capture request whenever the cached handle is flagged active,
stream.active holds and some track is enabled and live; otherwise, with
permission granted, it issues a fresh OS request, caches the new handle and
returns it; hence over any sequence of two or more calls starting from a
granted-permission empty cache, with the OS granting a continuously live
stream on the first call, every call returns that same handle and exactly
one OS capture request is issued in total. -/
theorem C1_single_prompt_cache :
    (∀ (st : MicState) (s : MediaStream) (os : OsAnswer),
        cacheHit st = true → st.audioStream = some s →
        getAudioStream st os = (st, some s, false)) ∧
    (∀ (st : MicState) (fresh : MediaStream) (os : OsAnswer),
        st.permissionGranted = true → cacheHit st = false → os = Except.ok fresh →
        getAudioStream st os =
          ({ st with audioStream := some fresh, isStreamActive := true },
           some fresh, true)) ∧
    (∀ (osRest : List OsAnswer) (fresh : MediaStream),
        osRest ≠ [] → fresh.active = true → hasActiveTracks fresh = true →
        (runGetAudioStream micFreshGranted (Except.ok fresh :: osRest)).2.map Prod.fst =
          List.replicate (osRest.length + 1) (some fresh) ∧
        ((runGetAudioStream micFreshGranted (Except.ok fresh :: osRest)).2.map
            Prod.snd).count true = 1) := by
  refine ⟨?_, ?_, ?_⟩
  · intro st s os h1 h2
    exact getAudioStream_cacheHit st s os h2 h1
  · intro st fresh os hp hch hos
    subst hos
    obtain ⟨pg, astream, isact⟩ := st
    simp only at hp
    subst hp
    cases astream with
    | none => simp [getAudioStream, micRequestStream]
    | some s =>
        cases isact <;> cases hsa : s.active <;> cases hat : hasActiveTracks s <;>
          simp_all [getAudioStream, micRequestStream, cacheHit]
  · intro osRest fresh hne hact htr
    have hfirst : getAudioStream micFreshGranted (Except.ok fresh) =
        (micCached fresh, some fresh, true) := by
      simp [getAudioStream, micFreshGranted, micRequestStream, micCached]
    have hch : cacheHit (micCached fresh) = true := by
      simp [cacheHit, micCached, hact, htr]
    have hrun := runGetAudioStream_cached (micCached fresh) fresh rfl hch osRest
    constructor
    · simp [runGetAudioStream, hfirst, hrun, List.map_map, Function.comp,
        List.replicate_succ]
    · simp [runGetAudioStream, hfirst, hrun, List.map_map, Function.comp,
        List.count_replicate]

/-- Witness for C1 at a two-call sequence on a live stream. -/
theorem C1_single_prompt_cache_witness :
    (runGetAudioStream micFreshGranted
        [Except.ok demoStream, Except.ok demoStream]).2.map Prod.fst =
      List.replicate 2 (some demoStream) ∧
    ((runGetAudioStream micFreshGranted
        [Except.ok demoStream, Except.ok demoStream]).2.map Prod.snd).count true = 1 :=
  C1_single_prompt_cache.2.2 [Except.ok demoStream] demoStream
    (by simp) (by decide) (by decide)

/-- Claim C6: the claim fails on the code. The error kinds are only
distinguished in the log classification; both initialize and getAudioStream
produce the very same caller-observable result for device-not-found and
device-busy errors, so the caller cannot distinguish those kinds from the
result. -/
theorem C6_error_taxonomy_counterexample :
    MediaError.notFound ≠ MediaError.notReadable ∧
    classifyMicError MediaError.notFound ≠ classifyMicError MediaError.notReadable ∧
    initOnError MediaError.notFound = initOnError MediaError.notReadable ∧
    getAudioStream micFreshGranted (Except.error MediaError.notFound) =
      getAudioStream micFreshGranted (Except.error MediaError.notReadable) := by
  decide

/-- Claim C6 amended: the catch clauses classify the simulated failure
conditions into distinct, non-overlapping kinds internally (logged), but
initialize returns false and getAudioStream returns null uniformly for all
of them, so the kinds are not observable from the result; the only
result-level distinction is that a permission error in getAudioStream also
invalidates the cached permission flag. -/
theorem C6_error_taxonomy_amended :
    (classifyMicError MediaError.notAllowed = MicErrorKind.denied ∧
     classifyMicError MediaError.notFound = MicErrorKind.deviceNotFound ∧
     classifyMicError MediaError.notReadable = MicErrorKind.deviceBusy ∧
     classifyMicError MediaError.other = MicErrorKind.otherKind) ∧
    (classifyMicError MediaError.notAllowed ≠ classifyMicError MediaError.notFound ∧
     classifyMicError MediaError.notAllowed ≠ classifyMicError MediaError.notReadable ∧
     classifyMicError MediaError.notAllowed ≠ classifyMicError MediaError.other ∧
     classifyMicError MediaError.notFound ≠ classifyMicError MediaError.notReadable ∧
     classifyMicError MediaError.notFound ≠ classifyMicError MediaError.other ∧
     classifyMicError MediaError.notReadable ≠ classifyMicError MediaError.other) ∧
    (initOnError MediaError.notAllowed = false ∧
     initOnError MediaError.notFound = false ∧
     initOnError MediaError.notReadable = false ∧
     initOnError MediaError.other = false) ∧
    ((getAudioStream micFreshGranted (Except.error MediaError.notAllowed)).2.1 = none ∧
     (getAudioStream micFreshGranted (Except.error MediaError.notFound)).2.1 = none ∧
     (getAudioStream micFreshGranted (Except.error MediaError.notReadable)).2.1 = none ∧
     (getAudioStream micFreshGranted (Except.error MediaError.other)).2.1 = none) ∧
    ((getAudioStream micFreshGranted
        (Except.error MediaError.notAllowed)).1.permissionGranted = false ∧
     (getAudioStream micFreshGranted
        (Except.error MediaError.notFound)).1.permissionGranted = true ∧
     (getAudioStream micFreshGranted
        (Except.error MediaError.notReadable)).1.permissionGranted = true ∧
     (getAudioStream micFreshGranted
        (Except.error MediaError.other)).1.permissionGranted = true) := by
  decide

/-- Claim C10: with the permission flag unset and no live cached handle,
getAudioStream returns null and issues no OS-level capture request. -/
theorem C10_permission_precedes_capture (st : MicState) (os : OsAnswer)
    (hp : st.permissionGranted = false) (hc : cacheHit st = false) :
    (getAudioStream st os).2.1 = none ∧ (getAudioStream st os).2.2 = false := by
  obtain ⟨pg, astream, isact⟩ := st
  simp only at hp
  subst hp
  cases astream with
  | none => simp [getAudioStream, micRequestStream]
  | some s =>
      cases isact <;> cases hsa : s.active <;> cases hat : hasActiveTracks s <;>
        simp_all [getAudioStream, micRequestStream, cacheHit]

/-- Witness for C10 at a concrete denied state. -/
theorem C10_permission_precedes_capture_witness :
    (getAudioStream micDenied (Except.error MediaError.other)).2.1 = none ∧
    (getAudioStream micDenied (Except.error MediaError.other)).2.2 = false :=
  C10_permission_precedes_capture micDenied (Except.error MediaError.other) rfl rfl

/-! ## PCM round trip: claim C4 -/

/-- Claim C4: the claim fails on the code. For the sample 65535 over 65536
the encode step scales by 32767 and truncates, losing half a step from the
scaling and almost a full step from the truncation: the round-trip error is
3 over 65536, more than one quantization step. -/
theorem C4_pcm_roundtrip_counterexample :
    1 / 32768 <
      |int16SampleToFloat (float32ToInt16Sample (65535 / 65536)) -
        ratClamp (65535 / 65536)| := by
  have h : float32ToInt16Sample (65535 / 65536) = 32766 := by
    norm_num [float32ToInt16Sample, ratClamp, jsTrunc]
  have h2 : int16SampleToFloat 32766 - ratClamp (65535 / 65536) = -(3 / 65536) := by
    norm_num [int16SampleToFloat, ratClamp]
  rw [h, h2, abs_neg, abs_of_nonneg (by norm_num : (0 : ℚ) ≤ 3 / 65536)]
  norm_num

/-- Claim C4 amended: the round-trip error on the clamped value is below
two quantization steps for every sample (the bound one step is reached and
can be exceeded for positive samples, which are scaled by 32767 and decoded
by 32768); for negative samples it is within one step; and the listed array
0, 0.5, -0.5, 1, -1 round-trips within one step per component. -/
theorem C4_pcm_roundtrip_amended :
    (∀ x : ℚ,
        |int16SampleToFloat (float32ToInt16Sample x) - ratClamp x| < 2 / 32768 ∧
        (ratClamp x < 0 →
          |int16SampleToFloat (float32ToInt16Sample x) - ratClamp x| ≤ 1 / 32768)) ∧
    List.Forall₂ (fun a b => |a - b| ≤ 1 / 32768)
      (decodeAudioSamples (float32ToInt16 [0, 1/2, -1/2, 1, -1]))
      [0, 1/2, -1/2, 1, -1] := by
  constructor
  · intro x
    have hcl : -1 ≤ ratClamp x := le_max_left _ _
    have hcu : ratClamp x ≤ 1 := max_le (by norm_num) (min_le_left _ _)
    rcases lt_or_le (ratClamp x) 0 with hneg | hpos
    · have hq : ratClamp x * 32768 < 0 := by nlinarith
      have henc : float32ToInt16Sample x = -Int.floor (-(ratClamp x * 32768)) := by
        simp [float32ToInt16Sample, jsTrunc, hneg, hq]
      have hf1 : (Int.floor (-(ratClamp x * 32768)) : ℚ) ≤ -(ratClamp x * 32768) :=
        Int.floor_le _
      have hf2 : -(ratClamp x * 32768) - 1 <
          (Int.floor (-(ratClamp x * 32768)) : ℚ) :=
        Int.sub_one_lt_floor _
      have hval : int16SampleToFloat (float32ToInt16Sample x) - ratClamp x
          = (-(ratClamp x * 32768) -
              (Int.floor (-(ratClamp x * 32768)) : ℚ)) / 32768 := by
        rw [henc]
        simp only [int16SampleToFloat]
        push_cast
        ring
      have h0 : 0 ≤ (-(ratClamp x * 32768) -
          (Int.floor (-(ratClamp x * 32768)) : ℚ)) / 32768 := by
        linarith
      constructor
      · rw [hval, abs_of_nonneg h0]
        linarith
      · intro _
        rw [hval, abs_of_nonneg h0]
        linarith
    · have hnneg : ¬ ratClamp x < 0 := not_lt.2 hpos
      have hq : ¬ ratClamp x * 32767 < 0 := by
        push_neg
        nlinarith
      have henc : float32ToInt16Sample x = Int.floor (ratClamp x * 32767) := by
        simp [float32ToInt16Sample, jsTrunc, hnneg, hq]
      have hf1 : (Int.floor (ratClamp x * 32767) : ℚ) ≤ ratClamp x * 32767 :=
        Int.floor_le _
      have hf2 : ratClamp x * 32767 - 1 < (Int.floor (ratClamp x * 32767) : ℚ) :=
        Int.sub_one_lt_floor _
      have hval : int16SampleToFloat (float32ToInt16Sample x) - ratClamp x
          = ((Int.floor (ratClamp x * 32767) : ℚ) - ratClamp x * 32768) / 32768 := by
        rw [henc]
        simp only [int16SampleToFloat]
        ring
      have h0 : ((Int.floor (ratClamp x * 32767) : ℚ) -
          ratClamp x * 32768) / 32768 ≤ 0 := by
        linarith
      constructor
      · rw [hval, abs_of_nonpos h0]
        linarith
      · intro hcn
        exact absurd hcn hnneg
  · have hlist : decodeAudioSamples (float32ToInt16 [0, 1/2, -1/2, 1, -1])
        = [0, 16383/32768, -1/2, 32767/32768, -1] := by
      norm_num [decodeAudioSamples, float32ToInt16, float32ToInt16Sample,
        ratClamp, jsTrunc, int16SampleToFloat]
    rw [hlist]
    refine List.Forall₂.cons ?_ (List.Forall₂.cons ?_ (List.Forall₂.cons ?_
      (List.Forall₂.cons ?_ (List.Forall₂.cons ?_ List.Forall₂.nil)))) <;>
      norm_num [abs_le]

/-- Witness for C4 at the sample minus three quarters. -/
theorem C4_pcm_roundtrip_amended_witness :
    |int16SampleToFloat (float32ToInt16Sample (-(3 : ℚ) / 4)) -
      ratClamp (-(3 : ℚ) / 4)| ≤ 1 / 32768 :=
  (C4_pcm_roundtrip_amended.1 (-(3 : ℚ) / 4)).2 (by norm_num [ratClamp])

/-! ## Batch duration gate: claim C5 -/

/-- Claim C5: the claim fails on the code. In the OpenRouter batch variant
the minimum-duration gate is 0.5 seconds, so a segment of one second at
44100 Hz, below the ~1.5 second threshold the claim states for the batch
path, does invoke the remote transcription call and returns its result. -/
theorem C5_short_audio_counterexample :
    ((44100 : ℚ) / 44100 < 3 / 2) ∧
    processRecordedAudioOpenRouter [44100] 44100 "transcribed" =
      ("transcribed", true) := by
  constructor
  · norm_num
  · norm_num [processRecordedAudioOpenRouter, chunkTotal]

/-- Claim C5 amended: the Gemini batch variant suppresses segments shorter
than 1.5 seconds, returning the empty string without invoking the remote
transcription call; the OpenRouter batch variant does the same but with a
0.5 second threshold. -/
theorem C5_short_audio_amended :
    (∀ (chunks : List Nat) (rate : ℚ) (remote : String),
        (chunkTotal chunks : ℚ) / rate < 3 / 2 →
        processRecordedAudioGemini chunks rate remote = ("", false)) ∧
    (∀ (chunks : List Nat) (rate : ℚ) (remote : String),
        (chunkTotal chunks : ℚ) / rate < 1 / 2 →
        processRecordedAudioOpenRouter chunks rate remote = ("", false)) := by
  constructor
  · intro chunks rate remote hshort
    by_cases hc : chunks = []
    · simp [processRecordedAudioGemini, hc]
    · simp [processRecordedAudioGemini, hc, hshort]
  · intro chunks rate remote hshort
    by_cases hc : chunks = []
    · simp [processRecordedAudioOpenRouter, hc]
    · have hshort2 : (chunkTotal chunks : ℚ) / rate < 2⁻¹ := by
        rw [← one_div]
        exact hshort
      simp [processRecordedAudioOpenRouter, hc, hshort2]

/-- Witness for C5: one second of audio at 16 kHz in the Gemini variant and
a fifth of a second at 44100 Hz in the OpenRouter variant. -/
theorem C5_short_audio_amended_witness :
    processRecordedAudioGemini [8000, 8000] 16000 "hello" = ("", false) ∧
    processRecordedAudioOpenRouter [8820] 44100 "hello" = ("", false) :=
  ⟨C5_short_audio_amended.1 [8000, 8000] 16000 "hello"
      (by norm_num [chunkTotal]),
   C5_short_audio_amended.2 [8820] 44100 "hello"
      (by norm_num [chunkTotal])⟩

/-! ## Inbound dispatch lemmas and claims C2, C3 -/

/-- On a message carrying only an audio chunk, the dispatch clamps the
cursor to the current time, schedules there, registers the fresh source and
advances the cursor by the chunk duration. -/
theorem handle_audioOnly (st : LiveState) (now : ℚ) (pcm : List ℤ) :
    handleServerMessage st now (some (audioOnlyMsg pcm)) =
      ({ st with nextStartTime := max st.nextStartTime now + chunkDur pcm,
                 sources := st.nextSourceId :: st.sources,
                 nextSourceId := st.nextSourceId + 1 },
       [Emit.scheduled st.nextSourceId (max st.nextStartTime now) (chunkDur pcm)]) := by
  simp [handleServerMessage, audioOnlyMsg]

/-- scheduledStarts distributes over concatenation of action lists. -/
theorem scheduledStarts_append (l1 l2 : List Emit) :
    scheduledStarts (l1 ++ l2) = scheduledStarts l1 ++ scheduledStarts l2 := by
  simp [scheduledStarts]

/-- The start times produced by a run of audio chunks are startsAux of the
initial cursor. -/
theorem schedStarts_run (chunks : List (List ℤ × ℚ)) :
    ∀ st : LiveState,
      scheduledStarts (runAudioChunks st chunks).2 =
        startsAux st.nextStartTime chunks := by
  induction chunks with
  | nil =>
      intro st
      simp [runAudioChunks, startsAux, scheduledStarts]
  | cons c rest ih =>
      intro st
      simp only [runAudioChunks, handle_audioOnly]
      rw [scheduledStarts_append, ih]
      simp [scheduledStarts, startsAux]

/-- Chunk durations are nonnegative. -/
theorem chunkDur_nonneg (pcm : List ℤ) : 0 ≤ chunkDur pcm := by
  unfold chunkDur
  positivity

/-- The chain invariant of startsAux: each start is the previous cursor
clamped to the arrival time, so consecutive starts differ by exactly the
previous duration when not clamped, the cursor never decreases, and starts
are monotone. -/
theorem startsAux_chain (chunks : List (List ℤ × ℚ)) :
    ∀ next : ℚ,
      List.Chain' (fun a b =>
        (b.2.2 ≤ a.1 + chunkDur a.2.1 → b.1 = a.1 + chunkDur a.2.1) ∧
        a.1 + chunkDur a.2.1 ≤ b.1 + chunkDur b.2.1 ∧ a.1 ≤ b.1)
        ((startsAux next chunks).zip chunks) := by
  induction chunks with
  | nil =>
      intro next
      simp [startsAux]
  | cons c rest ih =>
      intro next
      cases rest with
      | nil => simp [startsAux]
      | cons c2 rest2 =>
          have hz : (startsAux next (c :: c2 :: rest2)).zip (c :: c2 :: rest2) =
              (max next c.2, c) ::
                ((startsAux (max next c.2 + chunkDur c.1) (c2 :: rest2)).zip
                  (c2 :: rest2)) := by
            simp [startsAux]
          rw [hz]
          have htail := ih (max next c.2 + chunkDur c.1)
          rw [startsAux] at htail ⊢
          rw [List.zip_cons_cons] at htail ⊢
          refine List.Chain'.cons ?_ htail
          refine ⟨fun hle => max_eq_left hle, ?_, ?_⟩
          · have h1 := chunkDur_nonneg c2.1
            have h2 := le_max_left (max next c.2 + chunkDur c.1) c2.2
            linarith
          · have h1 := chunkDur_nonneg c.1
            have h2 := le_max_left (max next c.2 + chunkDur c.1) c2.2
            linarith

/-- Every start produced by startsAux is at or after its chunk's arrival
time. -/
theorem startsAux_ge_now (chunks : List (List ℤ × ℚ)) :
    ∀ next : ℚ,
      List.Forall₂ (fun s c => c.2 ≤ s) (startsAux next chunks) chunks := by
  induction chunks with
  | nil =>
      intro next
      simp [startsAux]
  | cons c rest ih =>
      intro next
      rw [startsAux]
      exact List.Forall₂.cons (le_max_right _ _) (ih _)

/-- Claim C2: over any inbound audio chunk sequence handled in arrival
order, pairing each scheduled start time with its chunk: whenever the
cursor is not clamped by the current time, the next start equals the
previous start plus the previous duration; the nextStartTime cursor after
each chunk (its start plus its duration) never decreases; starts are
monotone; and no chunk is scheduled before the output context's current
time at scheduling. -/
theorem C2_gapless_scheduling (st : LiveState) (chunks : List (List ℤ × ℚ)) :
    List.Chain' (fun a b =>
        (b.2.2 ≤ a.1 + chunkDur a.2.1 → b.1 = a.1 + chunkDur a.2.1) ∧
        a.1 + chunkDur a.2.1 ≤ b.1 + chunkDur b.2.1 ∧ a.1 ≤ b.1)
      ((scheduledStarts (runAudioChunks st chunks).2).zip chunks) ∧
    List.Forall₂ (fun s c => c.2 ≤ s)
      (scheduledStarts (runAudioChunks st chunks).2) chunks := by
  rw [schedStarts_run]
  exact ⟨startsAux_chain chunks st.nextStartTime,
    startsAux_ge_now chunks st.nextStartTime⟩

/-- Witness for C2 at a concrete two-chunk sequence. -/
theorem C2_gapless_scheduling_witness :
    List.Chain' (fun a b =>
        (b.2.2 ≤ a.1 + chunkDur a.2.1 → b.1 = a.1 + chunkDur a.2.1) ∧
        a.1 + chunkDur a.2.1 ≤ b.1 + chunkDur b.2.1 ∧ a.1 ≤ b.1)
      ((scheduledStarts (runAudioChunks liveZero demoChunks).2).zip demoChunks) ∧
    List.Forall₂ (fun s c => c.2 ≤ s)
      (scheduledStarts (runAudioChunks liveZero demoChunks).2) demoChunks :=
  C2_gapless_scheduling liveZero demoChunks

/-- After a message with the interrupted flag whose output transcription is
absent or empty, no scheduled source remains, the model text buffer is
empty and the cursor is zero. -/
theorem interrupted_state (st : LiveState) (now : ℚ) (c : ServerContent)
    (hi : c.interrupted = true) (ho : c.outputTranscription.getD "" = "") :
    (handleServerMessage st now (some c)).1.sources = [] ∧
    (handleServerMessage st now (some c)).1.currentOutputText = "" ∧
    (handleServerMessage st now (some c)).1.nextStartTime = 0 := by
  obtain ⟨ad, ib, it, ot, tc⟩ := c
  simp only at hi ho
  subst hi
  cases ot with
  | some t =>
      simp only [Option.getD] at ho
      subst ho
      cases ad <;> cases it <;> cases tc <;>
        simp [handleServerMessage] <;> split_ifs <;> simp_all
  | none =>
      cases ad <;> cases it <;> cases tc <;>
        simp [handleServerMessage] <;> split_ifs <;> simp_all

/-- Claim C3: the claim fails on the code. The output-transcription branch
of the dispatch runs after the interrupt branch, so a message that carries
the interrupted flag together with output transcription text leaves the
model-text buffer nonempty after processing. -/
theorem C3_interrupt_flush_counterexample :
    interruptWithTextMsg.interrupted = true ∧
    (handleServerMessage liveZero 0
      (some interruptWithTextMsg)).1.currentOutputText ≠ "" := by
  decide

/-- Claim C3 amended: after the dispatch processes a message carrying the
interrupted flag and no output-transcription text in the same message, no
previously scheduled playback source remains, the model-text buffer is
empty, the cursor is reset to zero, and a subsequent chunk arriving at a
nonnegative current time is scheduled exactly at that time. -/
theorem C3_interrupt_flush_amended (st : LiveState) (now : ℚ) (c : ServerContent)
    (hi : c.interrupted = true) (ho : c.outputTranscription.getD "" = "") :
    (handleServerMessage st now (some c)).1.sources = [] ∧
    (handleServerMessage st now (some c)).1.currentOutputText = "" ∧
    (handleServerMessage st now (some c)).1.nextStartTime = 0 ∧
    (∀ (now2 : ℚ) (pcm : List ℤ), 0 ≤ now2 →
        scheduledStarts (handleServerMessage
          (handleServerMessage st now (some c)).1 now2
          (some (audioOnlyMsg pcm))).2 = [now2]) := by
  obtain ⟨h1, h2, h3⟩ := interrupted_state st now c hi ho
  refine ⟨h1, h2, h3, ?_⟩
  intro now2 pcm hpos
  rw [handle_audioOnly, h3]
  simp [scheduledStarts, max_eq_right hpos]

/-- Witness for C3 at a concrete interrupting message followed by a chunk
at time one. -/
theorem C3_interrupt_flush_amended_witness :
    (handleServerMessage liveZero 0 (some demoInterruptMsg)).1.sources = [] ∧
    scheduledStarts (handleServerMessage
      (handleServerMessage liveZero 0 (some demoInterruptMsg)).1 1
      (some (audioOnlyMsg [5]))).2 = [1] := by
  have h := C3_interrupt_flush_amended liveZero 0 demoInterruptMsg rfl rfl
  exact ⟨h.1, h.2.2.2 1 [5] (by norm_num)⟩

/-! ## disconnect, pump and connect: claims C7, C8, C9 -/

/-- Claim C7: disconnect on an already idle session raises nothing, emits
no action at all (so no callback fires), and returns the very same idle
state; running it twice gives exactly the single-invocation result. -/
theorem C7_disconnect_idempotent (st : GeminiSessionState) (h : isIdleb st = true) :
    disconnect st = (st, []) ∧ disconnect (disconnect st).1 = (st, []) := by
  obtain ⟨se, sp, ic, oc, an, pr, iss, lv⟩ := st
  obtain ⟨nst, srcs, nid, cit, cot⟩ := lv
  simp only [isIdleb, Bool.and_eq_true, Bool.not_eq_true', List.isEmpty_iff,
    decide_eq_true_eq] at h
  obtain ⟨⟨⟨⟨⟨⟨⟨⟨⟨⟨h1, h2⟩, h3⟩, h4⟩, h5⟩, h6⟩, h7⟩, h8⟩, h9⟩, h10⟩, h11⟩ := h
  subst h1 h2 h3 h4 h5 h6 h7 h8 h9 h10 h11
  constructor <;> rfl

/-- Witness for C7 at the concrete idle state. -/
theorem C7_disconnect_idempotent_witness :
    disconnect geminiIdleState = (geminiIdleState, []) :=
  (C7_disconnect_idempotent geminiIdleState (by decide)).1

/-- Once the session promise is nulled, no event sequence makes the
unified pump send a frame: captures are gated out, and neither half of a
disconnect re-establishes the promise. -/
theorem geminiPumpRun_inactive (es : List GeminiPumpEvent) :
    ∀ st : GeminiPumpState, st.sessionPromiseActive = false →
      (geminiPumpRun st es).2 = [] := by
  induction es with
  | nil =>
      intro st h
      simp [geminiPumpRun]
  | cons e rest ih =>
      intro st h
      cases e with
      | capture f => simp [geminiPumpRun, geminiOnAudioProcess, h, ih st h]
      | stopRequest =>
          apply ih
          by_cases hs : st.session = true <;> simp [geminiStopRequest, hs, h]
      | closeResolved =>
          apply ih
          by_cases hc : st.closingAwait = true <;> simp [geminiCloseResolved, hc, h]

/-- geminiPumpRun splits over concatenation of event sequences. -/
theorem geminiPumpRun_append (es1 es2 : List GeminiPumpEvent) :
    ∀ st, geminiPumpRun st (es1 ++ es2) =
      ((geminiPumpRun (geminiPumpRun st es1).1 es2).1,
       (geminiPumpRun st es1).2 ++ (geminiPumpRun (geminiPumpRun st es1).1 es2).2) := by
  induction es1 with
  | nil =>
      intro st
      simp [geminiPumpRun]
  | cons e rest ih =>
      intro st
      cases e with
      | capture f => simp [geminiPumpRun, ih]
      | stopRequest => simp [geminiPumpRun, ih]
      | closeResolved => simp [geminiPumpRun, ih]

/-- After a stop request whose awaited close has resolved, the session
promise is nulled, whatever the starting state. -/
theorem geminiStop_then_close_gate (st : GeminiPumpState) :
    (geminiCloseResolved (geminiStopRequest st)).sessionPromiseActive = false := by
  by_cases hs : st.session = true <;> by_cases hc : st.closingAwait = true <;>
    simp [geminiStopRequest, geminiCloseResolved, hs, hc]

/-- Once isStreaming is cleared, no event sequence makes the legacy pump
send a frame. -/
theorem liveApiRun_inactive (es : List PumpEvent) :
    ∀ st : LiveApiState, st.isStreaming = false →
      (liveApiRun st es).2 = [] := by
  induction es with
  | nil =>
      intro st h
      simp [liveApiRun]
  | cons e rest ih =>
      intro st h
      cases e with
      | capture f => simp [liveApiRun, liveApiOnAudioProcess, h, ih st h]
      | stop =>
          apply ih
          simp [stopStreaming, h]

/-- liveApiRun splits over concatenation of event sequences. -/
theorem liveApiRun_append (es1 es2 : List PumpEvent) :
    ∀ st, liveApiRun st (es1 ++ es2) =
      ((liveApiRun (liveApiRun st es1).1 es2).1,
       (liveApiRun st es1).2 ++ (liveApiRun (liveApiRun st es1).1 es2).2) := by
  induction es1 with
  | nil =>
      intro st
      simp [liveApiRun]
  | cons e rest ih =>
      intro st
      cases e with
      | capture f => simp [liveApiRun, ih]
      | stop => simp [liveApiRun, ih]

/-- stopStreaming always leaves the streaming flag cleared. -/
theorem stopStreaming_flag (st : LiveApiState) :
    (stopStreaming st).isStreaming = false := by
  by_cases h : st.isStreaming = true <;> simp [stopStreaming, h]

/-- Claim C8: the claim fails on the code. In the unified implementation,
disconnect suspends at await session.close() before nulling
this.sessionPromise, so a capture callback firing after the stop request
but before the close resolves still passes the gate and sends its frame on
the channel instead of dropping it. -/
theorem C8_no_frames_after_stop_counterexample :
    (geminiPumpRun geminiStreamingState
        [GeminiPumpEvent.stopRequest, GeminiPumpEvent.capture [0]]).2 =
      [float32ToInt16 [0]] ∧
    [float32ToInt16 [0]] ≠ ([] : List (List ℤ)) := by
  constructor
  · rfl
  · simp [float32ToInt16]

/-- Claim C8 amended: once the close requested by the stop has resolved
(session.close() settles and disconnect nulls sessionPromise), no later
capture callback of the unified pump sends a frame in any interleaving;
but between the stop request and that resolution a capture callback from a
streaming session still sends its frame, because disconnect awaits
session.close() before nulling sessionPromise. The legacy implementation
clears isStreaming synchronously in stopStreaming, so there every capture
callback after the stop request drops its frame in every interleaving. -/
theorem C8_no_frames_after_stop_amended :
    (∀ (st : GeminiPumpState) (es1 es2 : List GeminiPumpEvent),
        (geminiPumpRun st (es1 ++ GeminiPumpEvent.stopRequest ::
            GeminiPumpEvent.closeResolved :: es2)).2 =
        (geminiPumpRun st (es1 ++ [GeminiPumpEvent.stopRequest,
            GeminiPumpEvent.closeResolved])).2) ∧
    (∀ (st : GeminiPumpState) (f : List ℚ),
        st.session = true → st.sessionPromiseActive = true →
        (geminiPumpRun st [GeminiPumpEvent.stopRequest,
            GeminiPumpEvent.capture f]).2 = [float32ToInt16 f]) ∧
    (∀ (st : LiveApiState) (es1 es2 : List PumpEvent),
        (liveApiRun st (es1 ++ PumpEvent.stop :: es2)).2 =
        (liveApiRun st (es1 ++ [PumpEvent.stop])).2) := by
  refine ⟨?_, ?_, ?_⟩
  · intro st es1 es2
    have hsplit : es1 ++ GeminiPumpEvent.stopRequest ::
        GeminiPumpEvent.closeResolved :: es2 =
        (es1 ++ [GeminiPumpEvent.stopRequest, GeminiPumpEvent.closeResolved]) ++ es2 := by
      simp
    rw [hsplit, geminiPumpRun_append]
    have hstop : ((geminiPumpRun st (es1 ++ [GeminiPumpEvent.stopRequest,
        GeminiPumpEvent.closeResolved])).1).sessionPromiseActive = false := by
      rw [geminiPumpRun_append]
      simp [geminiPumpRun, geminiStop_then_close_gate]
    rw [geminiPumpRun_inactive es2 _ hstop]
    simp
  · intro st f hs hp
    simp [geminiPumpRun, geminiStopRequest, geminiOnAudioProcess, hs, hp]
  · intro st es1 es2
    have hsplit : es1 ++ PumpEvent.stop :: es2 = (es1 ++ [PumpEvent.stop]) ++ es2 := by
      simp
    rw [hsplit, liveApiRun_append]
    have hstop : ((liveApiRun st (es1 ++ [PumpEvent.stop])).1).isStreaming = false := by
      rw [liveApiRun_append]
      simp [liveApiRun, stopStreaming_flag]
    rw [liveApiRun_inactive es2 _ hstop]
    simp

/-- Witness for C8 at a concrete streaming state: a frame captured in the
stop-to-close window is still sent. -/
theorem C8_no_frames_after_stop_amended_witness :
    (geminiPumpRun geminiStreamingState [GeminiPumpEvent.stopRequest,
        GeminiPumpEvent.capture [0, 0]]).2 = [float32ToInt16 [0, 0]] :=
  C8_no_frames_after_stop_amended.2.1 geminiStreamingState [0, 0] rfl rfl

/-- Claim C9: the claim is right and the code is wrong. connect reads no
state before proceeding: from the idle state a first connect leaves a
non-idle state, a second connect issued while the first is outstanding
performs exactly the same steps, and across the two overlapping calls two
capture requests are issued and two channels opened, instead of the second
call being rejected or ignored. -/
theorem C9_connect_no_idle_guard :
    isIdleb geminiIdleState = true ∧
    isIdleb (connectSteps geminiIdleState).1 = false ∧
    (connectSteps (connectSteps geminiIdleState).1).2 =
      (connectSteps geminiIdleState).2 ∧
    ((connectSteps geminiIdleState).2 ++
        (connectSteps (connectSteps geminiIdleState).1).2).count
      ConnectAction.captureRequested = 2 ∧
    ((connectSteps geminiIdleState).2 ++
        (connectSteps (connectSteps geminiIdleState).1).2).count
      ConnectAction.channelOpened = 2 := by
  decide
